import Mathlib

/-!
# Verification of the CLIPy reconciliation engine against its design spec

Shallow embedding of the candidate-reconciliation controller
(`src/CLIPy/database/database.py`), the temporal-range mixin
(`src/CLIPy/database/models.py`, `src/CLIPy/database/candidates.py`) and the
crawler worker loop (`src/CLIPy/crawler.py`).

Conventions of the embedding:
* Nullable columns / attributes are `Option` values (`None` ↦ `none`).
* The relational store is a list of row structures per table; a SQLAlchemy
  `query(...).filter_by(...).first()` is the first list element satisfying
  the filter, `.all()` is `List.filter`.
* `session.commit()` makes pending changes durable; an operation's returned
  store is the committed store after the call.  Where a commit can violate a
  uniqueness constraint declared in `models.py`, the commit is embedded as a
  fallible step returning `Except`.
* Python exceptions are `Except DBError`; each `raise` site gets its own
  `DBError` constructor carrying the values that the source interpolates
  into the exception message.
-/

/-- Errors raised by the controller.  Each constructor corresponds to one
`raise` site in `database.py` (or to an error raised by the storage backend
at commit time) and carries the values interpolated into the message. -/
inductive DBError where
  /-- `add_class`: "Class name change attempt. {old} to {new} (iid {iid})" -/
  | classNameChange (old new : Option String) (iid : Nat)
  /-- `add_class`: "Class abbreviation change attempt. {old} to {new} (iid {iid})" -/
  | classAbbrChange (old new : Option String) (iid : Nat)
  /-- `add_courses`: "Attempted to change a course name" -/
  | courseNameChange
  /-- `add_courses`: the re-raise "Failed to add courses.\n..." wrapping the
  original exception's traceback -/
  | courseAddFailure (inner : DBError)
  /-- `get_course`: "Multiple matches. Year unspecified" -/
  | multipleMatchesYearUnspecified
  /-- Python `AttributeError` from reading an attribute the model does not
  define (carries the attribute name) -/
  | attributeError (attr : String)
  /-- storage backend: uniqueness-constraint violation surfaced at commit -/
  | uniqueViolation
  deriving Repr, DecidableEq

/-! ## Temporal range mixin (`models.TemporalEntity`, models.py lines 127-148) -/

/-- The pair of nullable year columns shared by every temporally-scoped
entity (`first_year`, `last_year`). -/
structure TRange where
  first_year : Option Int
  last_year : Option Int
  deriving Repr, DecidableEq

/-- `models.TemporalEntity.add_year` (models.py lines 134-145):
guard `if year is None: return`, then fill either unset bound with the year,
then `if self.first_year > year: self.first_year = year
elif self.last_year < year: self.last_year = year`. -/
def TRange.add_year (r : TRange) (year : Option Int) : TRange :=
  match year with
  | none => r
  | some y =>
    let f := r.first_year.getD y
    let l := r.last_year.getD y
    if f > y then { first_year := some y, last_year := some l }
    else if l < y then { first_year := some f, last_year := some y }
    else { first_year := some f, last_year := some l }

/-- `candidates.TemporalEntity.add_year` (candidates.py lines 15-24): the
candidate-side copy of the widening rule; it has no `None` guard, so it is
embedded only for non-null years. -/
def TRange.candidate_add_year (r : TRange) (y : Int) : TRange :=
  let f := r.first_year.getD y
  let l := r.last_year.getD y
  if f > y then { first_year := some y, last_year := some l }
  else if l < y then { first_year := some f, last_year := some y }
  else { first_year := some f, last_year := some l }

/-- `models.TemporalEntity.has_time_range`: both bounds set. -/
def TRange.has_time_range (r : TRange) : Bool :=
  !(r.first_year = none || r.last_year = none)

/-- The invariant claimed for persisted temporal entities: both bounds unset,
or both set with `first_year ≤ last_year`. -/
def TRange.Inv (r : TRange) : Prop :=
  (r.first_year = none ∧ r.last_year = none) ∨
    (∃ f l : Int, r.first_year = some f ∧ r.last_year = some l ∧ f ≤ l)

instance (r : TRange) : Decidable r.Inv := by
  unfold TRange.Inv
  cases h1 : r.first_year <;> cases h2 : r.last_year
  · exact .isTrue (.inl ⟨rfl, rfl⟩)
  · refine .isFalse ?_
    rintro (⟨-, h⟩ | ⟨f, l, hf, -, -⟩) <;> simp_all
  · refine .isFalse ?_
    rintro (⟨h, -⟩ | ⟨f, l, -, hl, -⟩) <;> simp_all
  · rename_i f l
    by_cases hfl : f ≤ l
    · exact .isTrue (.inr ⟨f, l, rfl, rfl, hfl⟩)
    · refine .isFalse ?_
      rintro (⟨h, -⟩ | ⟨f', l', hf', hl', hle⟩)
      · simp_all
      · simp_all
        omega

/-! ## Classes (`Controller.add_class`, database.py lines 430-462)

A `models.Class` row; its natural key for `add_class` is
`(internal_id, department)` (the lookup filter). -/

/-- A persisted class row. `name`/`abbreviation` are nullable columns;
`department` is embedded as the referenced department's id. -/
structure ClassRow where
  internal_id : Nat
  department : Nat
  name : Option String
  abbreviation : Option String
  ects : Option Nat
  deriving Repr, DecidableEq

/-- `candidates.Class`: `(id, name, department, abbreviation, ects)`. -/
structure ClassCandidate where
  id : Nat
  name : Option String
  department : Nat
  abbreviation : Option String
  ects : Option Nat
  deriving Repr, DecidableEq

/-- The row created by `add_class` for a fresh candidate (database.py
lines 454-459). -/
def newClassRow (c : ClassCandidate) : ClassRow :=
  { internal_id := c.id
    department := c.department
    name := c.name
    abbreviation := c.abbreviation
    ects := c.ects }

/-- Whether a stored row matches the `add_class` lookup filter
`filter_by(internal_id=candidate.id, department=candidate.department)`. -/
def classKeyMatch (c : ClassCandidate) (r : ClassRow) : Bool :=
  r.internal_id == c.id && r.department == c.department

/-- The merge branch of `add_class` on the already-stored row (database.py
lines 436-451): raise on a name change; fill a null abbreviation (and
commit); raise on an abbreviation change; otherwise return the row
unchanged.  Returns the (possibly updated) row. -/
def mergeClass (db : ClassRow) (c : ClassCandidate) : Except DBError ClassRow :=
  if db.name ≠ c.name then
    .error (.classNameChange db.name c.name c.id)
  else
    match c.abbreviation with
    | some ab =>
      if db.abbreviation = none then
        .ok { db with abbreviation := some ab }
      else if db.abbreviation ≠ some ab then
        .error (.classAbbrChange db.abbreviation (some ab) c.id)
      else .ok db
    | none => .ok db

/-- `Controller.add_class` over the classes table: look up the first row
matching `(internal_id, department)`; merge if present, else insert the
candidate as a new row and commit.  On success returns the table and the
canonical row; a raised conflict propagates with no write committed. -/
def addClass : List ClassRow → ClassCandidate → Except DBError (List ClassRow × ClassRow)
  | [], c =>
    let row := newClassRow c
    .ok ([row], row)
  | r :: rs, c =>
    if classKeyMatch c r then
      match mergeClass r c with
      | .error e => .error e
      | .ok r' => .ok (r' :: rs, r')
    else
      match addClass rs c with
      | .error e => .error e
      | .ok (rs', res) => .ok (r :: rs', res)

/-! ## Class instances (`Controller.add_class_instances`, database.py
lines 464-482) -/

/-- A `models.ClassInstance` row, keyed by `(parent, year, period)`; the
parent class and the period are embedded as their ids. -/
structure ClassInstanceRow where
  parent : Nat
  year : Int
  period : Nat
  deriving Repr, DecidableEq

/-- `candidates.ClassInstance`: `(parent, period, year)`. -/
structure ClassInstanceCandidate where
  parent : Nat
  period : Nat
  year : Int
  deriving Repr, DecidableEq

/-- The `add_class_instances` lookup filter
`filter_by(parent=instance.parent, year=instance.year, period=instance.period)`. -/
def classInstanceKeyMatch (c : ClassInstanceCandidate) (r : ClassInstanceRow) : Bool :=
  r.parent == c.parent && r.year == c.year && r.period == c.period

/-- `Controller.add_class_instances`: for each candidate, if a row with its
key exists it is ignored, otherwise a new row is inserted and committed. -/
def addClassInstances (store : List ClassInstanceRow) :
    List ClassInstanceCandidate → List ClassInstanceRow
  | [] => store
  | c :: cs =>
    if store.any (classInstanceKeyMatch c) then
      addClassInstances store cs
    else
      addClassInstances (store ++ [⟨c.parent, c.year, c.period⟩]) cs

/-! ## Rooms (`Controller.add_room`, database.py lines 833-866,
non-caching path) -/

/-- A `models.Room` row; `room_type` (the `RoomType` enum) and the parent
building are embedded as numbers.  `models.py` declares the uniqueness
constraint `un_room` on `(building, name, room_type)`. -/
structure RoomRow where
  id : Nat
  name : String
  room_type : Nat
  building : Nat
  deriving Repr, DecidableEq

/-- `candidates.Room`: `(id, name, type, building)`. -/
structure RoomCandidate where
  id : Nat
  name : String
  room_type : Nat
  building : Nat
  deriving Repr, DecidableEq

/-- The `add_room` lookup filter
`filter_by(name=candidate.name, room_type=candidate.type, building=candidate.building)`. -/
def roomKeyMatch (c : RoomCandidate) (r : RoomRow) : Bool :=
  r.name == c.name && r.room_type == c.room_type && r.building == c.building

/-- `Controller.add_room` (non-caching branch): return the first stored row
matching `(name, room_type, building)`; if absent, insert the candidate's
row, commit, and return it.  The surrounding `try/except` only catches
storage-layer failures, which the pure create path cannot produce. -/
def addRoom (store : List RoomRow) (c : RoomCandidate) : List RoomRow × RoomRow :=
  match store.find? (roomKeyMatch c) with
  | some room => (store, room)
  | none =>
    let room : RoomRow := ⟨c.id, c.name, c.room_type, c.building⟩
    (store ++ [room], room)

/-! ## Courses (`Controller.add_courses` lines 540-589 and
`Controller.get_course` lines 254-289 of database.py) -/

/-- A `models.Course` row.  The model's temporal bounds are the
`TemporalEntity` columns `first_year`/`last_year`; `degree` and
`institution` are embedded as ids. -/
structure CourseRow where
  internal_id : Nat
  name : Option String
  abbreviation : Option String
  degree : Option Nat
  institution : Nat
  first_year : Option Int
  last_year : Option Int
  deriving Repr, DecidableEq

/-- `candidates.Course` plus the institution reference that
`populate.populate_courses` sets on it. -/
structure CourseCandidate where
  id : Nat
  name : Option String
  abbreviation : Option String
  degree : Option Nat
  institution : Nat
  first_year : Option Int
  last_year : Option Int
  deriving Repr, DecidableEq

/-- The `add_courses` lookup filter
`filter_by(internal_id=course.id, institution=course.institution)`. -/
def courseKeyMatch (c : CourseCandidate) (r : CourseRow) : Bool :=
  r.internal_id == c.id && r.institution == c.institution

/-- The row inserted by `add_courses` for a fresh candidate (database.py
lines 550-557). -/
def newCourseRow (c : CourseCandidate) : CourseRow :=
  { internal_id := c.id
    name := c.name
    abbreviation := c.abbreviation
    degree := c.degree
    institution := c.institution
    first_year := c.first_year
    last_year := c.last_year }

/-- The merge branch of `add_courses` on an existing row (database.py lines
561-580), returning the updated row and the `changed` flag:
raise if the candidate names a different course name; overwrite
`abbreviation`/`degree` when the candidate's value is non-null; then
`if db.first_year is None or course.first_year is not None and
course.first_year < db.first_year: db.first_year = course.first_year`, and
the analogous statement for `last_year` — whose comparison in the source is
also `course.last_year < db_course.last_year`. -/
def mergeCourse (db : CourseRow) (c : CourseCandidate) :
    Except DBError (CourseRow × Bool) :=
  if c.name ≠ none ∧ c.name ≠ db.name then
    .error .courseNameChange
  else
    let (db, changed) :=
      match c.abbreviation with
      | some ab => ({ db with abbreviation := some ab }, true)
      | none => (db, false)
    let (db, changed) :=
      match c.degree with
      | some d => ({ db with degree := some d }, true)
      | none => (db, changed)
    let (db, changed) :=
      match db.first_year, c.first_year with
      | none, cf => ({ db with first_year := cf }, true)
      | some dbf, some cf =>
        if cf < dbf then ({ db with first_year := some cf }, true) else (db, changed)
      | some _, none => (db, changed)
    let (db, changed) :=
      match db.last_year, c.last_year with
      | none, cl => ({ db with last_year := cl }, true)
      | some dbl, some cl =>
        if cl < dbl then ({ db with last_year := some cl }, true) else (db, changed)
      | some _, none => (db, changed)
    .ok (db, changed)

/-- Replace the first row matching the candidate's key by `r'` (the commit
of an in-place ORM update of the row returned by `.first()`). -/
def updateFirstCourse (c : CourseCandidate) (r' : CourseRow) :
    List CourseRow → List CourseRow
  | [] => []
  | r :: rs =>
    if courseKeyMatch c r then r' :: rs
    else r :: updateFirstCourse c r' rs

/-- `Controller.add_courses` (database.py lines 540-589): per candidate,
insert-and-commit when the key is absent, otherwise merge and commit when
`changed`; a raise inside the loop rolls back the in-flight item's pending
changes (commits already made for earlier candidates persist) and is
re-raised wrapped as "Failed to add courses." (`DBError.courseAddFailure`).
Returns the propagated exception (if any) together with the committed
store. -/
def addCourses (store : List CourseRow) :
    List CourseCandidate → Except DBError Unit × List CourseRow
  | [] => (.ok (), store)
  | c :: cs =>
    match store.find? (courseKeyMatch c) with
    | none => addCourses (store ++ [newCourseRow c]) cs
    | some db =>
      match mergeCourse db c with
      | .error e => (.error (.courseAddFailure e), store)
      | .ok (db', changed) =>
        if changed then addCourses (updateFirstCourse c db' store) cs
        else addCourses store cs

/-- `Controller.get_course` (database.py lines 254-289), caching branch.
The cache `__course_abbrs__` maps an abbreviation to the stored courses
carrying it (in store order).  With more than one match and no year the
source raises "Multiple matches. Year unspecified"; with a year it runs
`for match in matches: if match.initial_year <= year <= match.last_year`,
but `models.Course` defines no attribute `initial_year` (the temporal bound
is `first_year`, the name used for courses everywhere else in database.py),
so the first loop iteration raises `AttributeError`. -/
def getCourseCachedByAbbr (store : List CourseRow) (abbreviation : String)
    (year : Option Int) : Except DBError (Option CourseRow) :=
  let ms := store.filter (fun r => r.abbreviation == some abbreviation)
  if ms.length == 0 then .ok none
  else if ms.length == 1 then .ok ms.head?
  else
    match year with
    | none => .error .multipleMatchesYearUnspecified
    | some _ => .error (.attributeError "initial_year")

/-- `Controller.get_course`, non-caching branch, called with an
`abbreviation` (so `identifier is None`): the source queries
`filter_by(internal_id=identifier)` — the `identifier` argument, which is
`None` in this branch — so the match set is the rows whose `internal_id`
column equals `None`; `internal_id` is never null, hence no row matches. -/
def getCourseUncachedByAbbr (store : List CourseRow) (year : Option Int) :
    Except DBError (Option CourseRow) :=
  let identifier : Option Nat := none
  let ms := store.filter (fun r => some r.internal_id == identifier)
  if ms.length == 0 then .ok none
  else if ms.length == 1 then .ok ms.head?
  else
    match year with
    | none => .error .multipleMatchesYearUnspecified
    | some _ => .error (.attributeError "initial_year")

/-! ## Institutions (`Controller.add_institutions`, database.py
lines 312-371) -/

/-- A `models.Institution` row (`id`, nullable `name`/`abbreviation`, and
the `TemporalEntity` bounds). -/
structure InstitutionRow where
  id : Nat
  name : Option String
  abbreviation : Option String
  first_year : Option Int
  last_year : Option Int
  deriving Repr, DecidableEq

/-- `candidates.Institution` (`InstitutionCandidate` in populate.py): same
fields as the row. -/
structure InstitutionCandidate where
  id : Nat
  name : Option String
  abbreviation : Option String
  first_year : Option Int
  last_year : Option Int
  deriving Repr, DecidableEq

/-- The row inserted for a fresh institution candidate (database.py
lines 331-336). -/
def newInstitutionRow (c : InstitutionCandidate) : InstitutionRow :=
  { id := c.id
    name := c.name
    abbreviation := c.abbreviation
    first_year := c.first_year
    last_year := c.last_year }

/-- The merge branch of `add_institutions` (database.py lines 338-363):
update the name when the candidate's differs and is non-null; overwrite a
non-null abbreviation; widen `first_year` (`candidate.first_year <
institution.first_year`) and `last_year` (`candidate.last_year >
institution.last_year`), filling null bounds from the candidate. -/
def mergeInstitution (db : InstitutionRow) (c : InstitutionCandidate) :
    InstitutionRow :=
  let db :=
    match c.name with
    | some n => if db.name ≠ some n then { db with name := some n } else db
    | none => db
  let db :=
    match c.abbreviation with
    | some ab => { db with abbreviation := some ab }
    | none => db
  let db :=
    match db.first_year, c.first_year with
    | none, cf => { db with first_year := cf }
    | some dbf, some cf =>
      if cf < dbf then { db with first_year := some cf } else db
    | some _, none => db
  match db.last_year, c.last_year with
  | none, cl => { db with last_year := cl }
  | some dbl, some cl =>
    if cl > dbl then { db with last_year := some cl } else db
  | some _, none => db

/-- The commit of the institutions session: the backend enforces the
primary key on `id`, so a pending row set with a repeated id fails with a
uniqueness violation. -/
def commitInstitutions (rows : List InstitutionRow) :
    Except DBError (List InstitutionRow) :=
  if (rows.map InstitutionRow.id).Nodup then .ok rows else .error .uniqueViolation

/-- One iteration of the `add_institutions` loop in caching mode: the
lookup consults only the cache (`self.__institutions__`, a snapshot of the
store that is reloaded only after the final commit), so a cache miss adds a
new pending row even when an identical id is already pending. -/
def addInstitutionStep (cache : List InstitutionRow)
    (working : List InstitutionRow) (c : InstitutionCandidate) :
    List InstitutionRow :=
  match cache.find? (fun r => r.id == c.id) with
  | none => working ++ [newInstitutionRow c]
  | some _ =>
    working.map (fun r => if r.id == c.id then mergeInstitution r c else r)

/-- `Controller.add_institutions` in caching mode (database.py lines
312-371): the whole batch runs under one `try`, with a single
`session.commit()` after the loop; `except Exception` logs, rolls the
transaction back, and returns normally — the exception is **not**
re-raised, so the call always returns a committed store (the old one when
the commit failed). -/
def addInstitutionsCached (store : List InstitutionRow)
    (cands : List InstitutionCandidate) : List InstitutionRow :=
  let working := cands.foldl (addInstitutionStep store) store
  match commitInstitutions working with
  | .ok committed => committed
  | .error _ => store

/-! ## Worker retry loop (`PageCrawler.run`, crawler.py lines 29-55) -/

/-- The inner retry loop of `PageCrawler.run` for one work unit, for a task
whose attempt number `attempt` succeeds exactly when `outcome attempt` is
`true` (attempts are numbered from 1).  Mirrors:
`exception_count` starts at 0; a success breaks out (`.ok` with the
successful attempt's number); a failure rolls back, increments the counter,
and raises fatally (`.error` with the last attempt's number) once the
counter exceeds 10, otherwise sleeps and retries the same work unit. -/
def runWorkUnit (outcome : Nat → Bool) (attempt exceptionCount : Nat) :
    Except Nat Nat :=
  if outcome attempt then .ok attempt
  else
    let ec := exceptionCount + 1
    if _h : ec > 10 then .error attempt
    else runWorkUnit outcome (attempt + 1) ec
termination_by 10 - exceptionCount
decreasing_by omega

/-- How a worker thread ends: queue drained (normal exit) or a fatal raise
on `target` after executing `attempt` attempts on it. -/
inductive WorkerExit (α : Type) where
  | drained
  | fatal (target : α) (attempt : Nat)
  deriving Repr, DecidableEq

/-- The outer loop of `PageCrawler.run`: pop one target, run the retry loop
with a fresh `exception_count = 0`, and continue with the rest of the queue
on success; a fatal raise terminates the worker, leaving the remaining
queue as it is (the failed target is not put back).  Returns the exit kind
and the queue contents left behind. -/
def workerRun {α : Type} (outcome : α → Nat → Bool) :
    List α → WorkerExit α × List α
  | [] => (.drained, [])
  | t :: rest =>
    match runWorkUnit (outcome t) 1 0 with
    | .ok _ => workerRun outcome rest
    | .error n => (.fatal t n, rest)

/-! ## Turn/student associations (`Controller.add_turn_students`,
database.py lines 771-775, and the teacher appends of `add_turn`,
line 709)

The `turn_students` / `turn_teachers` secondary tables (models.py) have a
composite primary key over both columns, so flushing a pending association
insert for an already-associated pair fails with a uniqueness violation. -/

/-- Insert one `(turn_id, student_id)` association row, enforcing the
composite primary key of the secondary table. -/
def insertAssoc (table : List (Nat × Nat)) (p : Nat × Nat) :
    Except DBError (List (Nat × Nat)) :=
  if table.contains p then .error .uniqueViolation else .ok (table ++ [p])

/-- Flush a list of pending association inserts into the table, failing on
the first duplicate pair. -/
def commitAssocInserts (table : List (Nat × Nat)) :
    List (Nat × Nat) → Except DBError (List (Nat × Nat))
  | [] => .ok table
  | p :: ps =>
    match insertAssoc table p with
    | .error e => .error e
    | .ok t => commitAssocInserts t ps

/-- `Controller.add_turn_students`: append every given student to
`turn.students` — unconditionally, with no membership check — then commit
when the list is non-empty, which flushes one association insert per
appended student. -/
def addTurnStudents (table : List (Nat × Nat)) (turn : Nat)
    (students : List Nat) : Except DBError (List (Nat × Nat)) :=
  let pending := students.map (fun s => (turn, s))
  if students.isEmpty then .ok table
  else commitAssocInserts table pending

/-- The teacher-append stage of `Controller.add_turn` (database.py line
709): `[db_turn.teachers.append(teacher) for teacher in turn.teachers]` —
the in-memory `teachers` collection of the stored turn after the
unconditional appends (no commit happens in `add_turn` after this line;
the pending inserts are flushed by the next commit on the session). -/
def turnTeachersAfterAppend (collection : List Nat) (teachers : List Nat) :
    List Nat :=
  collection ++ teachers

/-! ## Turn instance sync (`Controller.add_turn_instances`, database.py
lines 715-769, incremental branch)

All candidates of one call belong to one turn (checked by the mixed-turn
guard), so the sync is embedded over that turn's instance collection and
rows drop the redundant turn reference. -/

/-- A `models.TurnInstance` row restricted to one turn: `start`/`end`
minutes, `weekday`, and the nullable room reference.  The column `end` is
embedded as `ending` (`end` is reserved in Lean). -/
structure TurnInstanceRow where
  start : Nat
  ending : Nat
  weekday : Nat
  room : Option Nat
  deriving Repr, DecidableEq

/-- The match test of the incremental branch (database.py lines 750-751):
equal `start`, `end` and `weekday`. -/
def tiKeyMatch (d c : TurnInstanceRow) : Bool :=
  d.start == c.start && d.ending == c.ending && d.weekday == c.weekday

/-- The `(start, end, weekday)` key. -/
def tiKey (r : TurnInstanceRow) : Nat × Nat × Nat :=
  (r.start, r.ending, r.weekday)

/-- `for instance in instances[:]: if <match>: ...; instances.remove(instance); break`
— find the first candidate matching the stored instance `d` and remove it
(by position, as `list.remove` removes that very object). -/
def extractMatch (d : TurnInstanceRow) :
    List TurnInstanceRow → Option (TurnInstanceRow × List TurnInstanceRow)
  | [] => none
  | c :: cs =>
    if tiKeyMatch d c then some (c, cs)
    else (extractMatch d cs).map (fun p => (p.1, c :: p.2))

/-- The two passes of the incremental branch: walk the stored instances in
order; a stored instance with a matching candidate is kept (its room
updated to the candidate's when different) and consumes that candidate; an
unmatched stored instance is deleted.  Returns the kept rows and the
unconsumed candidates. -/
def syncTurnInstances :
    List TurnInstanceRow → List TurnInstanceRow →
    List TurnInstanceRow × List TurnInstanceRow
  | [], cands => ([], cands)
  | d :: ds, cands =>
    match extractMatch d cands with
    | some (c, rest) =>
      let d' := if d.room == c.room then d else { d with room := c.room }
      let p := syncTurnInstances ds rest
      (d' :: p.1, p.2)
    | none => syncTurnInstances ds cands

/-- `Controller.add_turn_instances` with `destructive=False`: after the
matching pass, every remaining candidate is appended to the turn's
instances as a new row. -/
def addTurnInstancesIncremental (existing cands : List TurnInstanceRow) :
    List TurnInstanceRow :=
  let p := syncTurnInstances existing cands
  p.1 ++ p.2

/-! ## Theorems -/

/-- C4: `addYear` applies monotonic widening: from range [2010, 2012],
adding 2008 and then 2015 yields exactly [2008, 2015]; and adding any year
already inside the range leaves both bounds unchanged.  Proved for
`models.TemporalEntity.add_year` and, for the in-range no-op, also for the
candidate-side copy `candidates.TemporalEntity.add_year`. -/
theorem C4_add_year_widening :
    (TRange.add_year (TRange.add_year ⟨some 2010, some 2012⟩ (some 2008)) (some 2015)
        = ⟨some 2008, some 2015⟩) ∧
    (∀ f l y : Int, f ≤ y → y ≤ l →
      TRange.add_year ⟨some f, some l⟩ (some y) = ⟨some f, some l⟩) ∧
    (∀ f l y : Int, f ≤ y → y ≤ l →
      TRange.candidate_add_year ⟨some f, some l⟩ y = ⟨some f, some l⟩) := by
  refine ⟨by decide, ?_, ?_⟩
  · intro f l y hfy hyl
    simp only [TRange.add_year, Option.getD_some]
    rw [if_neg (by omega), if_neg (by omega)]
  · intro f l y hfy hyl
    simp only [TRange.candidate_add_year, Option.getD_some]
    rw [if_neg (by omega), if_neg (by omega)]

/-- Witness for C4 at the in-range year 2011 of the range [2010, 2012]. -/
theorem C4_add_year_widening_witness :
    TRange.add_year ⟨some 2010, some 2012⟩ (some 2011) = ⟨some 2010, some 2012⟩ ∧
    TRange.candidate_add_year ⟨some 2010, some 2012⟩ 2011 = ⟨some 2010, some 2012⟩ :=
  ⟨C4_add_year_widening.2.1 2010 2012 2011 (by decide) (by decide),
   C4_add_year_widening.2.2 2010 2012 2011 (by decide) (by decide)⟩

/-- C10: `models.TemporalEntity.add_year` preserves the invariant "both
bounds unset, or both set with `first_year ≤ last_year`" for every
argument, and `add_year(None)` returns before any comparison, leaving the
range exactly unchanged. -/
theorem C10_add_year_invariant :
    (∀ r : TRange, r.Inv → ∀ y : Option Int, (r.add_year y).Inv) ∧
    (∀ r : TRange, r.add_year none = r) := by
  constructor
  · rintro ⟨rf, rl⟩ (⟨h1, h2⟩ | ⟨f, l, h1, h2, hfl⟩) y <;>
      simp only at h1 h2 <;> subst h1 <;> subst h2
    · cases y with
      | none => exact .inl ⟨rfl, rfl⟩
      | some v =>
        simp only [TRange.add_year, Option.getD_none]
        rw [if_neg (by omega), if_neg (by omega)]
        exact .inr ⟨v, v, rfl, rfl, le_refl v⟩
    · cases y with
      | none => exact .inr ⟨f, l, rfl, rfl, hfl⟩
      | some v =>
        simp only [TRange.add_year, Option.getD_some]
        split
        · exact .inr ⟨v, l, rfl, rfl, by omega⟩
        · split
          · exact .inr ⟨f, v, rfl, rfl, by omega⟩
          · exact .inr ⟨f, l, rfl, rfl, hfl⟩
  · intro r
    rfl

/-- Witness for C10 at the range [3, 5] and the year 9. -/
theorem C10_add_year_invariant_witness :
    (TRange.add_year ⟨some 3, some 5⟩ (some 9)).Inv ∧
    TRange.add_year ⟨some 3, some 5⟩ none = ⟨some 3, some 5⟩ :=
  ⟨C10_add_year_invariant.1 ⟨some 3, some 5⟩ (.inr ⟨3, 5, rfl, rfl, by decide⟩) (some 9),
   C10_add_year_invariant.2 ⟨some 3, some 5⟩⟩

/-- C1 fails on `add_courses`: its `last_year` merge condition is
`course.last_year < db_course.last_year` (database.py line 576) — `<`
where the widening rule (and the sibling methods `add_institutions` /
`add_departments`) use `>` — so a candidate whose `last_year` is *smaller*
than the stored one NARROWS the stored range.  Here the stored course has
range [2010, 2015] and the candidate reports [2010, 2012]; after the batch
the committed row's `last_year` is 2012. -/
theorem C1_addCourses_narrows_last_year :
    mergeCourse ⟨10, some "N", none, none, 1, some 2010, some 2015⟩
        ⟨10, none, none, none, 1, some 2010, some 2012⟩
      = .ok (⟨10, some "N", none, none, 1, some 2010, some 2012⟩, true) ∧
    addCourses [⟨10, some "N", none, none, 1, some 2010, some 2015⟩]
        [⟨10, none, none, none, 1, some 2010, some 2012⟩]
      = (.ok (), [⟨10, some "N", none, none, 1, some 2010, some 2012⟩]) := by
  constructor
  · rfl
  · rfl

/-- C8 fails on `get_course` (database.py lines 254-289).  Caching mode:
with two stored courses sharing the abbreviation "MIEI" (ranges
[2010, 2012] and [2013, 2015]) and the year 2014 supplied, the resolution
loop reads `match.initial_year`, an attribute `models.Course` does not
define (the bound is `first_year`, used for courses everywhere else in
database.py), so the lookup raises `AttributeError` instead of returning
the 2013-2015 course.  Non-caching mode: the abbreviation branch queries
`filter_by(internal_id=identifier)` with the `identifier` argument — which
is `None` in this branch — so a unique course carrying the abbreviation is
not found (`None` is returned), and the ambiguous-without-year case
silently returns `None` instead of raising.  The parts that work: caching
mode returns a unique match without a year and raises
"Multiple matches. Year unspecified" when ambiguous with no year. -/
theorem C8_get_course_failing :
    (getCourseCachedByAbbr
        [⟨1, some "C1", some "MIEI", none, 1, some 2010, some 2012⟩,
         ⟨2, some "C2", some "MIEI", none, 1, some 2013, some 2015⟩]
        "MIEI" (some 2014)
      = .error (.attributeError "initial_year")) ∧
    (getCourseUncachedByAbbr
        [⟨1, some "C1", some "MIEI", none, 1, some 2010, some 2012⟩] none
      = .ok none) ∧
    (getCourseUncachedByAbbr
        [⟨1, some "C1", some "MIEI", none, 1, some 2010, some 2012⟩,
         ⟨2, some "C2", some "MIEI", none, 1, some 2013, some 2015⟩] none
      = .ok none) ∧
    (getCourseCachedByAbbr
        [⟨1, some "C1", some "MIEI", none, 1, some 2010, some 2012⟩]
        "MIEI" none
      = .ok (some ⟨1, some "C1", some "MIEI", none, 1, some 2010, some 2012⟩)) ∧
    (getCourseCachedByAbbr
        [⟨1, some "C1", some "MIEI", none, 1, some 2010, some 2012⟩,
         ⟨2, some "C2", some "MIEI", none, 1, some 2013, some 2015⟩]
        "MIEI" none
      = .error .multipleMatchesYearUnspecified) := by
  refine ⟨rfl, rfl, rfl, ?_, rfl⟩
  rfl

/-- Inserting a fresh class walks past every non-matching row and appends
the candidate's row at the end of the table. -/
theorem addClass_create (store : List ClassRow) (c : ClassCandidate)
    (h : ∀ r ∈ store, classKeyMatch c r = false) :
    addClass store c = .ok (store ++ [newClassRow c], newClassRow c) := by
  induction store with
  | nil => rfl
  | cons r rs ih =>
    have hr : classKeyMatch c r = false := h r (List.mem_cons_self r rs)
    have ih' := ih fun x hx => h x (List.mem_cons_of_mem r hx)
    simp [addClass, hr, ih']

/-- Merging a candidate into the row it itself created changes nothing and
returns that row. -/
theorem mergeClass_newClassRow (c : ClassCandidate) :
    mergeClass (newClassRow c) c = .ok (newClassRow c) := by
  cases hab : c.abbreviation <;> simp [mergeClass, newClassRow, hab]

/-- The candidate's own row matches the candidate's lookup key. -/
theorem classKeyMatch_newClassRow (c : ClassCandidate) :
    classKeyMatch c (newClassRow c) = true := by
  simp [classKeyMatch, newClassRow]

/-- The class-instance row created for a candidate matches its key. -/
theorem classInstanceKeyMatch_new (c : ClassInstanceCandidate) :
    classInstanceKeyMatch c ⟨c.parent, c.year, c.period⟩ = true := by
  simp [classInstanceKeyMatch]

/-- The room row created for a candidate matches its lookup filter. -/
theorem roomKeyMatch_new (c : RoomCandidate) :
    roomKeyMatch c ⟨c.id, c.name, c.room_type, c.building⟩ = true := by
  simp [roomKeyMatch]

/-- C2: reconciling the same candidate twice with identical fields returns
the same persisted entity both times and never creates a second row for
its natural key, for each of the cited natural-key methods: `add_class`
(key `(internal_id, department)`), `add_class_instances` (key
`(parent, year, period)`) and `add_room` (key
`(name, room_type, building)`).  Each hypothesis says the store holds no
row for the candidate's key yet; the first call then appends exactly one
row, and the second call resolves to that row and leaves the store
untouched. -/
theorem C2_idempotent_reconciliation
    (cs : List ClassRow) (c : ClassCandidate)
    (hc : ∀ r ∈ cs, classKeyMatch c r = false)
    (is : List ClassInstanceRow) (ci : ClassInstanceCandidate)
    (hi : is.any (classInstanceKeyMatch ci) = false)
    (rs : List RoomRow) (rc : RoomCandidate)
    (hr : rs.find? (roomKeyMatch rc) = none) :
    (addClass cs c = .ok (cs ++ [newClassRow c], newClassRow c) ∧
      addClass (cs ++ [newClassRow c]) c
        = .ok (cs ++ [newClassRow c], newClassRow c)) ∧
    (addClassInstances is [ci] = is ++ [⟨ci.parent, ci.year, ci.period⟩] ∧
      addClassInstances (is ++ [⟨ci.parent, ci.year, ci.period⟩]) [ci]
        = is ++ [⟨ci.parent, ci.year, ci.period⟩]) ∧
    (addRoom rs rc
        = (rs ++ [⟨rc.id, rc.name, rc.room_type, rc.building⟩],
           ⟨rc.id, rc.name, rc.room_type, rc.building⟩) ∧
      addRoom (rs ++ [⟨rc.id, rc.name, rc.room_type, rc.building⟩]) rc
        = (rs ++ [⟨rc.id, rc.name, rc.room_type, rc.building⟩],
           ⟨rc.id, rc.name, rc.room_type, rc.building⟩)) := by
  refine ⟨⟨addClass_create cs c hc, ?_⟩, ⟨?_, ?_⟩, ⟨?_, ?_⟩⟩
  · induction cs with
    | nil =>
      simp [addClass, classKeyMatch_newClassRow, mergeClass_newClassRow]
    | cons r rs ih =>
      have hrr : classKeyMatch c r = false := hc r (List.mem_cons_self r rs)
      have ih' := ih fun x hx => hc x (List.mem_cons_of_mem r hx)
      simp only [List.cons_append, addClass, hrr, Bool.false_eq_true,
        if_false, List.append_eq, ih']
  · simp [addClassInstances, hi]
  · simp [addClassInstances, List.any_append, classInstanceKeyMatch_new]
  · simp [addRoom, hr]
  · simp [addRoom, List.find?_append, hr, roomKeyMatch_new,
      List.find?_cons_of_pos]

/-- Witness for C2: a fresh class, class instance and room, each
reconciled twice against a store already holding one unrelated row. -/
theorem C2_idempotent_reconciliation_witness :
    (addClass [⟨9, 9, some "Other", none, none⟩] ⟨7, some "Calculus I", 3, some "C1", some 12⟩
        = .ok ([⟨9, 9, some "Other", none, none⟩,
                ⟨7, 3, some "Calculus I", some "C1", some 12⟩],
               ⟨7, 3, some "Calculus I", some "C1", some 12⟩) ∧
      addClass [⟨9, 9, some "Other", none, none⟩,
                ⟨7, 3, some "Calculus I", some "C1", some 12⟩]
          ⟨7, some "Calculus I", 3, some "C1", some 12⟩
        = .ok ([⟨9, 9, some "Other", none, none⟩,
                ⟨7, 3, some "Calculus I", some "C1", some 12⟩],
               ⟨7, 3, some "Calculus I", some "C1", some 12⟩)) ∧
    (addClassInstances [⟨9, 2009, 1⟩] [⟨7, 2, 2015⟩] = [⟨9, 2009, 1⟩, ⟨7, 2015, 2⟩] ∧
      addClassInstances [⟨9, 2009, 1⟩, ⟨7, 2015, 2⟩] [⟨7, 2, 2015⟩]
        = [⟨9, 2009, 1⟩, ⟨7, 2015, 2⟩]) ∧
    (addRoom [⟨9, "Lab 9", 4, 2⟩] ⟨5, "Room 127", 2, 1⟩
        = ([⟨9, "Lab 9", 4, 2⟩, ⟨5, "Room 127", 2, 1⟩], ⟨5, "Room 127", 2, 1⟩) ∧
      addRoom [⟨9, "Lab 9", 4, 2⟩, ⟨5, "Room 127", 2, 1⟩] ⟨5, "Room 127", 2, 1⟩
        = ([⟨9, "Lab 9", 4, 2⟩, ⟨5, "Room 127", 2, 1⟩], ⟨5, "Room 127", 2, 1⟩)) := by
  exact C2_idempotent_reconciliation
    [⟨9, 9, some "Other", none, none⟩] ⟨7, some "Calculus I", 3, some "C1", some 12⟩
    (by decide)
    [⟨9, 2009, 1⟩] ⟨7, 2, 2015⟩ (by decide)
    [⟨9, "Lab 9", 4, 2⟩] ⟨5, "Room 127", 2, 1⟩ (by decide)

/-- An `addClass` error on the suffix propagates unchanged past a prefix of
non-matching rows. -/
theorem addClass_error_propagates (pre : List ClassRow) (rest : List ClassRow)
    (c : ClassCandidate) (e : DBError)
    (hpre : ∀ r ∈ pre, classKeyMatch c r = false)
    (h : addClass rest c = .error e) :
    addClass (pre ++ rest) c = .error e := by
  induction pre with
  | nil => simpa using h
  | cons r rs ih =>
    have hr : classKeyMatch c r = false := hpre r (List.mem_cons_self r rs)
    have ih' := ih fun x hx => hpre x (List.mem_cons_of_mem r hx)
    simp [addClass, hr, List.append_eq, ih']

/-- C3: reconciling a class candidate against the stored class of the same
natural key raises a fatal conflict error naming both the old and the new
value, and commits no write, both for a changed non-null name and for a
changed non-null abbreviation.  The store is `pre ++ db :: post` with `db`
the first row matching the key (the row `.first()` returns); an `.error`
result is the exception propagating before any commit, so the committed
table is untouched. -/
theorem C3_class_conflict_raises
    (pre post : List ClassRow) (db : ClassRow) (c : ClassCandidate)
    (hkey : classKeyMatch c db = true)
    (hpre : ∀ r ∈ pre, classKeyMatch c r = false) :
    (db.name ≠ c.name →
      addClass (pre ++ db :: post) c
        = .error (.classNameChange db.name c.name c.id)) ∧
    (∀ a b : String, db.name = c.name → db.abbreviation = some a →
      c.abbreviation = some b → a ≠ b →
      addClass (pre ++ db :: post) c
        = .error (.classAbbrChange (some a) (some b) c.id)) := by
  constructor
  · intro hname
    refine addClass_error_propagates pre _ c _ hpre ?_
    simp [addClass, hkey, mergeClass, hname]
  · intro a b hname hdba hcb hab
    refine addClass_error_propagates pre _ c _ hpre ?_
    have : ¬(db.name ≠ c.name) := by simpa using hname
    simp [addClass, hkey, mergeClass, this, hcb, hdba, hab]

/-- Witness for C3: stored class 7 named "Calculus I" with abbreviation
"C1"; one candidate renames it, another changes the abbreviation. -/
theorem C3_class_conflict_raises_witness :
    (addClass [⟨9, 9, some "Other", none, none⟩,
               ⟨7, 3, some "Calculus I", some "C1", some 12⟩]
        ⟨7, some "Calculus II", 3, some "C1", some 12⟩
      = .error (.classNameChange (some "Calculus I") (some "Calculus II") 7)) ∧
    (addClass [⟨9, 9, some "Other", none, none⟩,
               ⟨7, 3, some "Calculus I", some "C1", some 12⟩]
        ⟨7, some "Calculus I", 3, some "CI", some 12⟩
      = .error (.classAbbrChange (some "C1") (some "CI") 7)) := by
  constructor
  · exact (C3_class_conflict_raises [⟨9, 9, some "Other", none, none⟩] []
      ⟨7, 3, some "Calculus I", some "C1", some 12⟩
      ⟨7, some "Calculus II", 3, some "C1", some 12⟩
      (by decide) (by decide)).1 (by decide)
  · exact (C3_class_conflict_raises [⟨9, 9, some "Other", none, none⟩] []
      ⟨7, 3, some "Calculus I", some "C1", some 12⟩
      ⟨7, some "Calculus I", 3, some "CI", some 12⟩
      (by decide) (by decide)).2 "C1" "CI" (by decide) (by decide) (by decide)
      (by decide)

/-- When every attempt fails, the retry loop raises at attempt
`a + (10 - ec)`: each failure bumps the counter and the raise fires as
soon as it exceeds 10. -/
theorem runWorkUnit_all_fail (outcome : Nat → Bool)
    (h : ∀ k, outcome k = false) :
    ∀ n ec a, ec + n = 10 → runWorkUnit outcome a ec = .error (a + n) := by
  intro n
  induction n with
  | zero =>
    intro ec a hec
    have h10 : ec = 10 := by omega
    subst h10
    rw [runWorkUnit]
    simp [h a]
  | succ n ih =>
    intro ec a hec
    rw [runWorkUnit]
    simp only [h a, Bool.false_eq_true, if_false]
    rw [dif_neg (by omega)]
    rw [ih (ec + 1) (a + 1) (by omega)]
    congr 1
    omega

/-- When the first success is at attempt `k ≤ 11`, the retry loop reaches
it and returns it: along the failing prefix the counter stays one below
the attempt number, so the ceiling is never crossed. -/
theorem runWorkUnit_first_success (outcome : Nat → Bool) (k : Nat)
    (hk1 : 1 ≤ k) (hk : k ≤ 11) (hsucc : outcome k = true)
    (hfail : ∀ j, 1 ≤ j → j < k → outcome j = false) :
    ∀ n a, 1 ≤ a → a ≤ k → k - a = n → runWorkUnit outcome a (a - 1) = .ok k := by
  intro n
  induction n with
  | zero =>
    intro a ha1 hak hn
    have hka : a = k := by omega
    subst hka
    rw [runWorkUnit]
    simp [hsucc]
  | succ n ih =>
    intro a ha1 hak hn
    have hfa : outcome a = false := hfail a ha1 (by omega)
    rw [runWorkUnit]
    simp only [hfa, Bool.false_eq_true, if_false]
    rw [dif_neg (by omega)]
    have harg : a - 1 + 1 = a + 1 - 1 := by omega
    rw [harg]
    exact ih (a + 1) (by omega) (by omega) (by omega)

/-- C5: a crawl task that fails on every attempt for one target makes its
worker terminate fatally after the 11th failed attempt on that target (the
counter has just exceeded 10), leaving the rest of the queue as it was —
the target is not requeued; and a task whose first success comes at
attempt `k ≤ 11` makes the worker move on to the remaining targets, its
per-target counter starting again at 0 (visible in `workerRun`, which
enters every target's retry loop with `exception_count = 0`). -/
theorem C5_fatal_ceiling {α : Type} (outcome : α → Nat → Bool) (t : α)
    (rest : List α) :
    ((∀ k, outcome t k = false) →
      workerRun outcome (t :: rest) = (.fatal t 11, rest)) ∧
    (∀ k, 1 ≤ k → k ≤ 11 → outcome t k = true →
      (∀ j, 1 ≤ j → j < k → outcome t j = false) →
      workerRun outcome (t :: rest) = workerRun outcome rest) := by
  constructor
  · intro h
    have h1 : runWorkUnit (outcome t) 1 0 = .error 11 :=
      runWorkUnit_all_fail (outcome t) h 10 0 1 (by omega)
    simp [workerRun, h1]
  · intro k hk1 hk hsucc hfail
    have h1 : runWorkUnit (outcome t) 1 0 = .ok k :=
      runWorkUnit_first_success (outcome t) k hk1 hk hsucc hfail (k - 1) 1
        (le_refl 1) hk1 rfl
    simp [workerRun, h1]

/-- Witness for C5 over a queue of numbered targets: target 0 always
fails (fatal exit after 11 attempts, queue left as `[1, 2]`); with a task
that always succeeds, the worker just drains the rest. -/
theorem C5_fatal_ceiling_witness :
    workerRun (fun _ _ => false) [0, 1, 2] = (.fatal 0 11, [1, 2]) ∧
    workerRun (fun (_ : Nat) (_ : Nat) => true) [5, 7]
      = workerRun (fun _ _ => true) [7] :=
  ⟨(C5_fatal_ceiling (fun _ _ => false) 0 [1, 2]).1 (fun _ => rfl),
   (C5_fatal_ceiling (fun _ _ => true) 5 [7]).2 1 (by decide) (by decide) rfl
     (fun j hj1 hj2 => absurd (hj1.trans_lt hj2) (by omega))⟩

/-- C6 counterexample: turn 1 already has student 7 associated
(`turn_students` holds the row `(1, 7)`).  Re-submitting that association
through `add_turn_students` is NOT a no-op: the unconditional append makes
the commit re-insert the pair, the composite primary key of
`turn_students` rejects it, and the call raises instead of returning the
unchanged association set. -/
theorem C6_readd_association_counterexample :
    addTurnStudents [(1, 7)] 1 [7] = .error .uniqueViolation ∧
    addTurnStudents [(1, 7)] 1 [7] ≠ .ok [(1, 7)] := by
  constructor
  · rfl
  · intro h
    simp [addTurnStudents, commitAssocInserts, insertAssoc] at h

/-- C6 amended: re-submitting an existing turn/student association through
`add_turn_students` raises a uniqueness violation at its commit (and the
rolled-back store is unchanged); an association not yet present is
inserted.  `add_turn` likewise appends its candidate's teachers to
`turn.teachers` unconditionally, so a teacher already associated appears a
second time in the collection (a pending duplicate insert, rejected at the
session's next commit). -/
theorem C6_readd_association_amended (table : List (Nat × Nat)) (turn s : Nat) :
    ((turn, s) ∈ table →
      addTurnStudents table turn [s] = .error .uniqueViolation) ∧
    ((turn, s) ∉ table →
      addTurnStudents table turn [s] = .ok (table ++ [(turn, s)])) ∧
    (∀ collection : List Nat, ∀ t : Nat,
      (turnTeachersAfterAppend collection [t]).count t
        = collection.count t + 1) := by
  refine ⟨?_, ?_, ?_⟩
  · intro hmem
    simp [addTurnStudents, commitAssocInserts, insertAssoc, hmem]
  · intro hmem
    simp [addTurnStudents, commitAssocInserts, insertAssoc, hmem]
  · intro collection t
    simp [turnTeachersAfterAppend]

/-- Witness for C6 amended: re-adding `(1, 7)` fails, adding the fresh
`(1, 8)` succeeds, and re-appending teacher 4 leaves it twice in the
collection. -/
theorem C6_readd_association_amended_witness :
    addTurnStudents [(1, 7)] 1 [7] = .error .uniqueViolation ∧
    addTurnStudents [(1, 7)] 1 [8] = .ok [(1, 7), (1, 8)] ∧
    (turnTeachersAfterAppend [4] [4]).count 4 = [4].count 4 + 1 := by
  refine ⟨(C6_readd_association_amended [(1, 7)] 1 7).1 (by decide),
    ?_, (C6_readd_association_amended [] 1 0).2.2 [4] 4⟩
  exact (C6_readd_association_amended [(1, 7)] 1 8).2.1 (by decide)

/-- C7 counterexample: `add_institutions` does NOT re-raise.  Two
candidates with the same id in one cached batch (the cache snapshot is
stale during the loop) produce two pending inserts for id 1; the single
batch-end commit violates the primary key and raises, but the
`except Exception` arm logs, rolls back, and falls off the end of the
function: the call returns normally and the store still holds nothing —
the batch's earlier candidate was never separately committed either. -/
theorem C7_batch_failure_counterexample :
    commitInstitutions
        ([⟨1, some "FCT", none, some 2000, some 2001⟩,
          ⟨1, some "FCT", none, some 2000, some 2001⟩] : List InstitutionRow)
      = .error .uniqueViolation ∧
    ([⟨1, some "FCT", none, some 2000, some 2001⟩,
      ⟨1, some "FCT", none, some 2000, some 2001⟩] : List InstitutionCandidate).foldl
        (addInstitutionStep []) []
      = [⟨1, some "FCT", none, some 2000, some 2001⟩,
         ⟨1, some "FCT", none, some 2000, some 2001⟩] ∧
    addInstitutionsCached []
        [⟨1, some "FCT", none, some 2000, some 2001⟩,
         ⟨1, some "FCT", none, some 2000, some 2001⟩]
      = [] := by
  refine ⟨rfl, rfl, rfl⟩

/-- C7 amended, the part that holds: in `add_courses` a conflict while
processing one candidate leaves the rows committed for earlier candidates
of the same batch in the store, rolls back only the in-flight item, and
re-raises (wrapped as "Failed to add courses.").  Here `c1` is fresh (its
insert is committed at once) and `c2` hits the course-name conflict. -/
theorem C7_add_courses_reraise (s : List CourseRow) (c1 c2 : CourseCandidate)
    (db : CourseRow)
    (h1 : s.find? (courseKeyMatch c1) = none)
    (h2 : (s ++ [newCourseRow c1]).find? (courseKeyMatch c2) = some db)
    (hname : c2.name ≠ none ∧ c2.name ≠ db.name) :
    addCourses s [c1, c2]
      = (.error (.courseAddFailure .courseNameChange), s ++ [newCourseRow c1]) := by
  have hm : mergeCourse db c2 = .error .courseNameChange := by
    rw [mergeCourse, if_pos hname]
  simp [addCourses, h1, h2, hm]

/-- Witness for C7: course 1 is created and committed, then candidate 2
(same key) tries to rename it; the call propagates the wrapped error while
course 1's row stays stored. -/
theorem C7_add_courses_reraise_witness :
    addCourses []
        [⟨1, some "Biology", none, none, 9, some 2000, some 2001⟩,
         ⟨1, some "Botany", none, none, 9, some 2000, some 2001⟩]
      = (.error (.courseAddFailure .courseNameChange),
         [newCourseRow ⟨1, some "Biology", none, none, 9, some 2000, some 2001⟩]) := by
  exact C7_add_courses_reraise []
    ⟨1, some "Biology", none, none, 9, some 2000, some 2001⟩
    ⟨1, some "Botany", none, none, 9, some 2000, some 2001⟩
    (newCourseRow ⟨1, some "Biology", none, none, 9, some 2000, some 2001⟩)
    rfl (by decide) (by decide)

/-- The match test equals equality of the `(start, end, weekday)` keys. -/
theorem tiKeyMatch_iff (d c : TurnInstanceRow) :
    tiKeyMatch d c = true ↔ tiKey d = tiKey c := by
  simp [tiKeyMatch, tiKey, and_assoc]

/-- If the candidate scan found no match for `d`, nothing in the list
matches `d`. -/
theorem extractMatch_eq_none {d : TurnInstanceRow}
    {cands : List TurnInstanceRow} (h : extractMatch d cands = none) :
    ∀ x ∈ cands, tiKeyMatch d x = false := by
  induction cands with
  | nil => simp
  | cons a cs ih =>
    simp only [extractMatch] at h
    by_cases ha : tiKeyMatch d a
    · rw [if_pos ha] at h
      exact absurd h (by simp)
    · rw [if_neg ha] at h
      have h2 : extractMatch d cs = none := by
        cases he : extractMatch d cs with
        | none => rfl
        | some p => rw [he] at h; simp at h
      intro x hx
      rcases List.mem_cons.mp hx with hxa | hx'
      · subst hxa
        simpa using ha
      · exact ih h2 x hx'

/-- A successful candidate scan splits the list around the first match:
everything before it does not match `d`, the match does, and the returned
remainder is the list with exactly that element removed. -/
theorem extractMatch_eq_some {d c : TurnInstanceRow}
    {rest cands : List TurnInstanceRow}
    (h : extractMatch d cands = some (c, rest)) :
    ∃ l1 l2, cands = l1 ++ c :: l2 ∧ rest = l1 ++ l2 ∧
      (∀ x ∈ l1, tiKeyMatch d x = false) ∧ tiKeyMatch d c = true := by
  induction cands generalizing rest with
  | nil => simp [extractMatch] at h
  | cons a cs ih =>
    simp only [extractMatch] at h
    by_cases ha : tiKeyMatch d a
    · rw [if_pos ha] at h
      have h' := Option.some.inj h
      have h1 : a = c := congrArg Prod.fst h'
      have h2 : cs = rest := congrArg Prod.snd h'
      exact ⟨[], cs, by simp [h1], by simp [h2], by simp, h1 ▸ ha⟩
    · rw [if_neg ha] at h
      cases he : extractMatch d cs with
      | none => rw [he] at h; simp at h
      | some p =>
        obtain ⟨c', rest'⟩ := p
        rw [he] at h
        simp only [Option.map_some'] at h
        have h' := Option.some.inj h
        have h1 : c' = c := congrArg Prod.fst h'
        have h2 : a :: rest' = rest := congrArg Prod.snd h'
        subst h1
        obtain ⟨l1, l2, hcs, hrest', hl1, hc⟩ := ih he
        refine ⟨a :: l1, l2, by simp [hcs], by simp [← h2, hrest'], ?_, hc⟩
        intro x hx
        rcases List.mem_cons.mp hx with hxa | hx'
        · subst hxa
          simpa using ha
        · exact hl1 x hx'

/-- `find?` over a list split around its first satisfying element. -/
theorem find?_middle {α : Type} (p : α → Bool) (l1 l2 : List α) (c : α)
    (h1 : ∀ x ∈ l1, p x = false) (hc : p c = true) :
    (l1 ++ c :: l2).find? p = some c := by
  induction l1 with
  | nil => simp [List.find?_cons_of_pos _ hc]
  | cons a l ih =>
    have ha := h1 a (List.mem_cons_self a l)
    rw [List.cons_append, List.find?_cons_of_neg _ (by simp [ha])]
    exact ih fun x hx => h1 x (List.mem_cons_of_mem a hx)

/-- Removing an element that does not satisfy `p` leaves `find? p`
unchanged. -/
theorem find?_erase_middle {α : Type} (p : α → Bool) (l1 l2 : List α) (c : α)
    (hc : p c = false) :
    (l1 ++ c :: l2).find? p = (l1 ++ l2).find? p := by
  rw [List.find?_append, List.find?_append,
    List.find?_cons_of_neg _ (by simp [hc])]

/-- Filtering a list split around an element the predicate rejects, while
the predicates agree elsewhere. -/
theorem filter_middle_congr {α : Type} (q p : α → Bool) (l1 l2 : List α)
    (c : α) (h1 : ∀ x ∈ l1, q x = p x) (h2 : ∀ x ∈ l2, q x = p x)
    (hc : q c = false) :
    (l1 ++ c :: l2).filter q = (l1 ++ l2).filter p := by
  rw [List.filter_append, List.filter_append,
    List.filter_cons_of_neg (by simp [hc]),
    List.filter_congr h1, List.filter_congr h2]

/-- The room-update step always results in the row carrying the
candidate's room (updating only when different changes nothing else). -/
theorem roomUpdate_eq (d c : TurnInstanceRow) :
    (if d.room == c.room then d else { d with room := c.room })
      = { d with room := c.room } := by
  by_cases h : d.room = c.room
  · rw [if_pos (by simp [h])]
    cases d
    simp_all
  · rw [if_neg (by simp [h])]

/-- Unfolding of the sync pass when the head stored instance has a
matching candidate. -/
theorem sync_cons_some {d c : TurnInstanceRow}
    {rest cands : List TurnInstanceRow} (ds : List TurnInstanceRow)
    (he : extractMatch d cands = some (c, rest)) :
    syncTurnInstances (d :: ds) cands
      = ((if d.room == c.room then d else { d with room := c.room })
           :: (syncTurnInstances ds rest).1, (syncTurnInstances ds rest).2) := by
  simp [syncTurnInstances, he]

/-- Unfolding of the sync pass when the head stored instance has no
matching candidate (it is deleted). -/
theorem sync_cons_none {d : TurnInstanceRow} {cands : List TurnInstanceRow}
    (ds : List TurnInstanceRow) (he : extractMatch d cands = none) :
    syncTurnInstances (d :: ds) cands = syncTurnInstances ds cands := by
  simp [syncTurnInstances, he]

/-- C9: the incremental branch of `add_turn_instances` realizes the
match/update/delete/insert rule.  Provided the `(start, end, weekday)`
keys are unambiguous on each side (distinct among the stored instances and
distinct among the candidates), the resulting instance collection consists
of exactly: every stored instance with a matching candidate, kept with its
room set to that candidate's room; no stored instance without a match
(those are deleted); and, appended, every candidate without a matching
stored instance (those are inserted). -/
theorem C9_incremental_turn_sync (existing cands : List TurnInstanceRow)
    (hex : existing.Pairwise (fun a b => tiKey a ≠ tiKey b))
    (hca : cands.Pairwise (fun a b => tiKey a ≠ tiKey b)) :
    addTurnInstancesIncremental existing cands
      = existing.filterMap
          (fun d => (cands.find? (tiKeyMatch d)).map
            (fun c => { d with room := c.room }))
        ++ cands.filter (fun c => !(existing.any (fun dd => tiKeyMatch dd c))) := by
  induction existing generalizing cands with
  | nil =>
    simp [addTurnInstancesIncremental, syncTurnInstances]
  | cons d ds ih =>
    rw [List.pairwise_cons] at hex
    obtain ⟨hd, hds⟩ := hex
    cases he : extractMatch d cands with
    | none =>
      have hall := extractMatch_eq_none he
      have hfind : cands.find? (tiKeyMatch d) = none :=
        List.find?_eq_none.mpr fun x hx => by simp [hall x hx]
      have hlhs : addTurnInstancesIncremental (d :: ds) cands
          = addTurnInstancesIncremental ds cands := by
        simp only [addTurnInstancesIncremental]
        rw [sync_cons_none ds he]
      rw [hlhs, ih cands hds hca,
        List.filterMap_cons_none (by simp [hfind])]
      congr 1
      apply List.filter_congr
      intro x hx
      simp [hall x hx]
    | some p =>
      obtain ⟨c, rest⟩ := p
      obtain ⟨l1, l2, hcands, hrest, hl1, hc⟩ := extractMatch_eq_some he
      subst hcands
      subst hrest
      have hkeydc : tiKey d = tiKey c := (tiKeyMatch_iff d c).mp hc
      have hsub : List.Sublist (l1 ++ l2) (l1 ++ c :: l2) :=
        (List.sublist_cons_self c l2).append_left l1
      have hca' : (l1 ++ l2).Pairwise (fun a b => tiKey a ≠ tiKey b) :=
        List.Pairwise.sublist hsub hca
      have hcl2 : ∀ x ∈ l2, tiKey c ≠ tiKey x := by
        have h2 := (List.pairwise_append.mp hca).2.1
        rw [List.pairwise_cons] at h2
        exact h2.1
      have hlhs : addTurnInstancesIncremental (d :: ds) (l1 ++ c :: l2)
          = { d with room := c.room }
              :: addTurnInstancesIncremental ds (l1 ++ l2) := by
        simp only [addTurnInstancesIncremental]
        rw [sync_cons_some ds he, roomUpdate_eq]
        rfl
      have hfind : (l1 ++ c :: l2).find? (tiKeyMatch d) = some c :=
        find?_middle _ l1 l2 c hl1 hc
      rw [hlhs, ih (l1 ++ l2) hds hca']
      simp only [List.filterMap_cons, hfind, Option.map_some', List.cons_append]
      congr 1
      congr 1
      · apply List.filterMap_congr
        intro dd hdd
        have hkey : tiKeyMatch dd c = false := by
          rw [Bool.eq_false_iff]
          intro habs
          exact hd dd hdd (hkeydc.trans ((tiKeyMatch_iff dd c).mp habs).symm)
        rw [find?_erase_middle _ l1 l2 c hkey]
      · refine (filter_middle_congr _ _ l1 l2 c ?_ ?_ (by simp [hc])).symm
        · intro x hx
          simp [hl1 x hx]
        · intro x hx
          have hkey : tiKeyMatch d x = false := by
            rw [Bool.eq_false_iff]
            intro habs
            exact hcl2 x hx (hkeydc.symm.trans ((tiKeyMatch_iff d x).mp habs))
          simp [hkey]

/-- Witness for C9: the spec's example.  Existing instances
(Mon 9:00-11:00, room 1) and (Wed 9:00-11:00, room 1); candidates
(Mon 9:00-11:00, room 2) and (Fri 14:00-16:00, room 1).  Monday's room is
updated to 2, Wednesday's instance is deleted, Friday's is inserted.
(Minutes from midnight; weekdays 0 = Monday, 2 = Wednesday, 4 = Friday,
per the controller's weekday table.) -/
theorem C9_incremental_turn_sync_witness :
    addTurnInstancesIncremental
        [⟨540, 660, 0, some 1⟩, ⟨540, 660, 2, some 1⟩]
        [⟨540, 660, 0, some 2⟩, ⟨840, 960, 4, some 1⟩]
      = [⟨540, 660, 0, some 2⟩, ⟨840, 960, 4, some 1⟩] := by
  rw [C9_incremental_turn_sync
    [⟨540, 660, 0, some 1⟩, ⟨540, 660, 2, some 1⟩]
    [⟨540, 660, 0, some 2⟩, ⟨840, 960, 4, some 1⟩]
    (by decide) (by decide)]
  rfl
